import Mathlib

/-!
Verification of the clone-run-multi-ws migration pipeline.

This file gives a shallow embedding, in Lean, of the pure decision logic of
the Go migration tool (case-id mapping, result transformation, chunked bulk
posting with retry, idempotency filtering, paginated fetching, per-run-group
processing), and proves or refutes the frozen specification claims about it.

Remote I/O is modelled by oracles: an HTTP interaction is a function from a
page number / attempt number to the response the server would give, and the
embedded functions fold over those oracles exactly as the Go loops do.
Go `int` is modelled as `Int`, HTTP status codes as `Nat`, Go maps as
association lists with insert-or-overwrite semantics, and `fmt.Printf`
side effects that the claims mention (clamp warnings) as an extra returned
component.  Counters that Go only ever increments are modelled as `Nat`.
-/

/-- Association-list lookup, modelling a read from a Go map. -/
def assocLookup {α β : Type} [DecidableEq α] : List (α × β) → α → Option β
  | [], _ => none
  | (k, v) :: rest, key => if key = k then some v else assocLookup rest key

/-- Association-list insert with overwrite, modelling a Go map write
`m[k] = v` (keys stay unique, a later write to the same key replaces the
earlier value). -/
def assocInsert {α β : Type} [DecidableEq α] (m : List (α × β)) (k : α) (v : β) :
    List (α × β) :=
  if (assocLookup m k).isSome then
    m.map (fun p => if p.1 = k then (k, v) else p)
  else
    m ++ [(k, v)]

/-- Mirrors `qase.Result` (src/qase/results.go, src/unnamed/part_006): one
test result as fetched from the source workspace.  The `Steps` and
`IsAPIResult` fields are carried by the Go struct but never read by any of
the functions embedded here, so they are omitted. -/
structure ResultRec where
  hash : String
  comment : String
  runId : Int
  caseId : Int
  status : String
  time : Option Int
  timeSpentMs : Int
  endTime : String
deriving DecidableEq

/-- Mirrors `qase.BulkItem` (src/qase/cases.go): one transformed result ready
for bulk posting. -/
structure BulkItem where
  caseId : Int
  status : String
  time : Option Int
  comment : String
deriving DecidableEq

namespace MainGo

/-- Mirrors `transformResults` of src/main.go (lines 241-271): maps each
record's case id through `caseMapping`, skipping (and counting) records whose
case id is not a key; applies the status translation table only when it is
configured (`some`) and contains an exact entry for the record's status;
passes `Time` and `Comment` through unchanged.  The Go `statusMap != nil`
test is the `Option` match. -/
def transformResults : List ResultRec → List (Int × Int) →
    Option (List (String × String)) → List BulkItem × Nat
  | [], _, _ => ([], 0)
  | r :: rest, caseMapping, statusMap =>
    let (items, skipped) := transformResults rest caseMapping statusMap
    match assocLookup caseMapping r.caseId with
    | none => (items, skipped + 1)
    | some targetCaseID =>
      let status :=
        match statusMap with
        | none => r.status
        | some m =>
          match assocLookup m r.status with
          | some mappedStatus => mappedStatus
          | none => r.status
      ({ caseId := targetCaseID, status := status, time := r.time,
         comment := r.comment } :: items, skipped)

end MainGo

/-- Maximum time accepted by the target API, one year in seconds
(`maxTimeSeconds` in src/unnamed/part_003 and src/cmd/fetch-results/main.go). -/
def maxTimeSeconds : Int := 31536000

namespace Part003

/-- Mirrors `transformResults` of src/unnamed/part_003 (lines 733-778).
Same mapping/skip/status logic as the src/main.go variant, but the optional
`time` value (already in seconds) is dropped unless positive and clamped at
`maxTimeSeconds`.  The clamp-warning `fmt.Printf` is modelled by the third
returned component: the list of case ids a warning was printed for. -/
def transformResults : List ResultRec → List (Int × Int) →
    Option (List (String × String)) → List BulkItem × Nat × List Int
  | [], _, _ => ([], 0, [])
  | r :: rest, caseMapping, statusMap =>
    let (items, skipped, warned) := transformResults rest caseMapping statusMap
    match assocLookup caseMapping r.caseId with
    | none => (items, skipped + 1, warned)
    | some targetCaseID =>
      let status :=
        match statusMap with
        | none => r.status
        | some m =>
          match assocLookup m r.status with
          | some mappedStatus => mappedStatus
          | none => r.status
      match r.time with
      | some t =>
        if 0 < t then
          if maxTimeSeconds < t then
            ({ caseId := targetCaseID, status := status,
               time := some maxTimeSeconds, comment := r.comment } :: items,
             skipped, r.caseId :: warned)
          else
            ({ caseId := targetCaseID, status := status, time := some t,
               comment := r.comment } :: items, skipped, warned)
        else
          ({ caseId := targetCaseID, status := status, time := none,
             comment := r.comment } :: items, skipped, warned)
      | none =>
        ({ caseId := targetCaseID, status := status, time := none,
           comment := r.comment } :: items, skipped, warned)

end Part003

namespace FetchResults

/-- Mirrors `transformResults` of src/cmd/fetch-results/main.go (lines
430-474).  The status table there is a non-nil Go map, so it is a plain
association list; elapsed time is taken from `TimeSpentMs`, converted to
seconds by integer division, and clamped at `maxTimeSeconds`; a
`TimeSpentMs` of zero (or negative) yields no time field.  The clamp-warning
`fmt.Printf` is modelled by the third returned component. -/
def transformResults : List ResultRec → List (Int × Int) →
    List (String × String) → List BulkItem × Nat × List Int
  | [], _, _ => ([], 0, [])
  | r :: rest, caseMapping, statusMap =>
    let (items, skipped, warned) := transformResults rest caseMapping statusMap
    match assocLookup caseMapping r.caseId with
    | none => (items, skipped + 1, warned)
    | some targetCaseID =>
      let status :=
        match assocLookup statusMap r.status with
        | some mappedStatus => mappedStatus
        | none => r.status
      if 0 < r.timeSpentMs then
        let timeInSeconds := r.timeSpentMs / 1000
        if maxTimeSeconds < timeInSeconds then
          ({ caseId := targetCaseID, status := status,
             time := some maxTimeSeconds, comment := r.comment } :: items,
           skipped, r.caseId :: warned)
        else
          ({ caseId := targetCaseID, status := status,
             time := some timeInSeconds, comment := r.comment } :: items,
           skipped, warned)
      else
        ({ caseId := targetCaseID, status := status, time := none,
           comment := r.comment } :: items, skipped, warned)

end FetchResults

/-- Parsed body of a bulk-post response, mirroring the fields of
`qase.BulkResponse` that `postChunk` reads (only the top-level `status`
flag). -/
structure BulkRespBody where
  status : Bool
deriving DecidableEq

/-- Outcome of one HTTP POST attempt of a chunk, as seen by `postChunk`
(src/qase/cases.go): either the transport failed, or the server answered
with a status code, a raw body, and the result of unmarshalling that body
(`none` models a JSON parse failure). -/
inductive AttemptResp where
  | transportErr (msg : String)
  | resp (statusCode : Nat) (rawBody : String) (parsed : Option BulkRespBody)
deriving DecidableEq

/-- Go error values as the bulk poster distinguishes them: a typed
`*httpError` (src/qase/cases.go lines 341-349), or any other error value
(everything built with `fmt.Errorf`), carrying only its message. -/
inductive GoErr where
  | httpErr (statusCode : Nat) (message : String)
  | genericErr (message : String)
deriving DecidableEq

/-- Mirrors the `Error()` method: `*httpError` renders as
"HTTP <status>: <msg>", any other error is its message. -/
def GoErr.msgText : GoErr → String
  | .httpErr st m => "HTTP " ++ toString st ++ ": " ++ m
  | .genericErr m => m

/-- Mirrors `postChunk` (src/qase/cases.go lines 289-330) as a function of
the attempt's HTTP outcome.  Every failure path builds its error with
`fmt.Errorf`, i.e. a `genericErr` — the `httpErr` constructor is never
produced, exactly as `&httpError{...}` is never constructed in the Go
source. -/
def postChunk : AttemptResp → Option GoErr
  | .transportErr msg => some (.genericErr ("failed to make request: " ++ msg))
  | .resp statusCode rawBody parsed =>
    if statusCode ≠ 200 then
      some (.genericErr ("API request failed with status " ++
        toString statusCode ++ ": " ++ rawBody))
    else
      match parsed with
      | none => some (.genericErr "failed to parse response")
      | some b =>
        if b.status = false then
          some (.genericErr ("bulk request failed: " ++ rawBody))
        else none

/-- Mirrors `isRetryableError` (src/qase/cases.go lines 332-339): true only
for a typed `*httpError` whose status is 429 or 5xx; the type assertion
fails on every other error value. -/
def isRetryableError : GoErr → Bool
  | .httpErr st _ => st == 429 || (decide (500 ≤ st) && decide (st < 600))
  | .genericErr _ => false

/-- The fixed backoff sequence of `postChunkWithRetry`
(src/qase/cases.go line 266), in milliseconds. -/
def backoffDelays : List Nat := [200, 1000, 3000, 5000]

/-- Loop body of `postChunkWithRetry` (src/qase/cases.go lines 265-287).
`remaining` counts the loop iterations left (`len(backoffDelays) - attempt`),
so the recursion is structural.  Returns the final error (`none` on
success), the number of post attempts actually made, and the backoff delays
slept, in order — the latter two model the loop's observable effects. -/
def postChunkWithRetryGo (att : Nat → AttemptResp) (chunkNum totalChunks : Nat) :
    Nat → Nat → List Nat → Option GoErr × Nat × List Nat
  | 0, attempt, slept =>
    (some (.genericErr ("chunk " ++ toString chunkNum ++ "/" ++
      toString totalChunks ++ " failed after " ++
      toString backoffDelays.length ++ " attempts")), attempt, slept)
  | remaining + 1, attempt, slept =>
    match postChunk (att attempt) with
    | none => (none, attempt + 1, slept)
    | some e =>
      if isRetryableError e then
        if attempt < backoffDelays.length - 1 then
          postChunkWithRetryGo att chunkNum totalChunks remaining (attempt + 1)
            (slept ++ [backoffDelays.getD attempt 0])
        else
          postChunkWithRetryGo att chunkNum totalChunks remaining (attempt + 1)
            slept
      else (some e, attempt + 1, slept)

/-- Mirrors `postChunkWithRetry` (src/qase/cases.go lines 265-287): up to
`len(backoffDelays)` attempts, retrying (after the scheduled sleep) only
when `isRetryableError` holds. -/
def postChunkWithRetry (att : Nat → AttemptResp) (chunkNum totalChunks : Nat) :
    Option GoErr × Nat × List Nat :=
  postChunkWithRetryGo att chunkNum totalChunks backoffDelays.length 0 []

/-- The chunk decomposition performed by the `for i := 0; i < len(items);
i += chunkSize` loop of `PostBulkResults`: successive slices of `k` items
(the last one possibly shorter).  Only used with `k ≥ 1`. -/
def chunksOf {α : Type} (k : Nat) : List α → List (List α)
  | [] => []
  | a :: rest => (a :: rest.take (k - 1)) :: chunksOf k (rest.drop (k - 1))
termination_by l => l.length
decreasing_by simp; omega

/-- The `fmt.Errorf("failed to post chunk %d: %w", ...)` wrap of
`PostBulkResults` (src/qase/cases.go line 256). -/
def wrapChunkErr (chunkNum : Nat) (e : GoErr) : GoErr :=
  .genericErr ("failed to post chunk " ++ toString chunkNum ++ ": " ++ e.msgText)

/-- Chunk-posting loop of `PostBulkResults` (src/qase/cases.go lines
244-258): posts each chunk through `postChunkWithRetry` (the per-chunk,
per-attempt HTTP outcomes given by `att`), wraps the first chunk failure as
"failed to post chunk <n>" and stops there.  Returns the final error and
the list of chunks for which a post call was issued, in order. -/
def postChunks (att : Nat → Nat → AttemptResp) (k : Nat) (totalChunks : Nat) :
    Nat → List BulkItem → Option GoErr × List (List BulkItem)
  | _, [] => (none, [])
  | chunkIdx, a :: rest =>
    let chunk := a :: rest.take (k - 1)
    match (postChunkWithRetry (att chunkIdx) (chunkIdx + 1) totalChunks).1 with
    | some e => (some (wrapChunkErr (chunkIdx + 1) e), [chunk])
    | none =>
      let r := postChunks att k totalChunks (chunkIdx + 1) (rest.drop (k - 1))
      (r.1, chunk :: r.2)
termination_by _ l => l.length
decreasing_by simp; omega

/-- Mirrors `PostBulkResults` (src/qase/cases.go lines 231-262): returns
success immediately on an empty item list, substitutes the default chunk
size 200 when the given one is ≤ 0, then posts the chunks in order.  The
second component of the result is the list of chunks actually posted. -/
def PostBulkResults (att : Nat → Nat → AttemptResp) (items : List BulkItem)
    (chunkSize : Int) : Option GoErr × List (List BulkItem) :=
  if items = [] then (none, [])
  else
    let k : Int := if chunkSize ≤ 0 then 200 else chunkSize
    let totalChunks := (items.length + k.toNat - 1) / k.toNat
    postChunks att k.toNat totalChunks 0 items

/-- Mirrors `getExistingCaseIDs` (src/unnamed/part_006 lines 301-350) after
its pagination loop has gathered every result of the target run: the set of
case ids present, built by the Go map writes `existingCaseIDs[r.CaseID] =
true` in iteration order.  The run's remote results are the input list. -/
def getExistingCaseIDs (existing : List ResultRec) : List Int :=
  existing.foldl (fun s r => if r.caseId ∈ s then s else s ++ [r.caseId]) []

/-- Candidate loop of `FilterNewResults` (src/unnamed/part_006 lines
289-294): appends, in order, the candidates whose case id the
existing-case-id set does not contain. -/
def filterLoop (ids : List Int) : List BulkItem → List BulkItem
  | [] => []
  | r :: rest =>
    if !(r.caseId ∈ ids : Bool) then r :: filterLoop ids rest
    else filterLoop ids rest

/-- Mirrors `FilterNewResults` (src/unnamed/part_006 lines 281-298): keeps,
in order, the candidate items whose case id is not in the target run's
existing-case-id set. -/
def FilterNewResults (existing : List ResultRec)
    (newResults : List BulkItem) : List BulkItem :=
  filterLoop (getExistingCaseIDs existing) newResults

/-- Mirrors `qase.Case` (src/qase/cases.go): a test case with its custom
fields. -/
structure CustomField where
  id : Int
  value : String
deriving DecidableEq

/-- Mirrors `qase.Case` (src/qase/cases.go). -/
structure Case where
  id : Int
  title : String
  customFields : List CustomField
deriving DecidableEq

namespace Mapping

/-- Inner field scan of `buildCustomFieldMapping` (src/mapping/mapping.go
lines 92-103): the first field carrying the configured id whose value parses
as an integer yields a mapping pair (`break`); a field with the right id but
an unparsable value is skipped with a warning (`continue`, staying in the
field loop). -/
def scanFields (cfID : Int) (caseId : Int) : List CustomField → Option (Int × Int)
  | [] => none
  | f :: rest =>
    if f.id = cfID then
      match f.value.toInt? with
      | none => scanFields cfID caseId rest
      | some sourceID => some (sourceID, caseId)
    else scanFields cfID caseId rest

/-- Mirrors `buildCustomFieldMapping` (src/mapping/mapping.go lines 85-108):
a custom field id of 0 is a fatal configuration error; otherwise every
target case contributes at most one (source id ↦ target id) pair, written
into the map (`tgtCases` lists the cases in Go's map-iteration order).
`strconv.Atoi` is modelled by `String.toInt?`. -/
def buildCustomFieldMapping (tgtCases : List Case) (cfID : Int) :
    Except String (List (Int × Int)) :=
  if cfID = 0 then
    .error "custom field ID is required for custom_field mode"
  else
    .ok (tgtCases.foldl
      (fun m c =>
        match scanFields cfID c.id c.customFields with
        | none => m
        | some (sourceID, targetID) => assocInsert m sourceID targetID) [])

/-- Row loop of `buildCSVMapping` (src/mapping/mapping.go lines 58-78): rows
with fewer than two columns, or with a non-integer id in either column, are
skipped with a warning; valid rows are written into the map front-to-back. -/
def csvRowsFold (rows : List (List String)) : List (Int × Int) :=
  rows.foldl
    (fun m row =>
      match row with
      | c0 :: c1 :: _ =>
        match c0.trim.toInt? with
        | none => m
        | some sourceID =>
          match c1.trim.toInt? with
          | none => m
          | some targetID => assocInsert m sourceID targetID
      | _ => m) []

/-- Mirrors `buildCSVMapping` (src/mapping/mapping.go lines 34-82).  The
filesystem is the oracle `fsRead`: the parsed records of a readable CSV
file, or `none` when opening/reading fails.  An empty path is a fatal
configuration error; a file without at least a header and one data row is an
error; the header row is discarded; malformed data rows are skipped. -/
def buildCSVMapping (csvPath : String)
    (fsRead : String → Option (List (List String))) :
    Except String (List (Int × Int)) :=
  if csvPath = "" then
    .error "CSV path is required for csv mode"
  else
    match fsRead csvPath with
    | none => .error "failed to open CSV file"
    | some records =>
      if records.length < 2 then
        .error "CSV file must have at least a header and one data row"
      else
        .ok (csvRowsFold (records.drop 1))

end Mapping

/-- Mirrors `qase.Run` (src/qase/runs.go), with `time.Time` values as Unix
timestamps. -/
structure Run where
  id : Int
  title : String
  description : String
  status : Int
  createdAt : Int
  updatedAt : Int
  startTime : Int
  endTime : Int
deriving DecidableEq

/-- One page answer from the remote list endpoints: the entity list of a
successful 200 response, or any terminal failure of that page request
(transport error, non-200 status, or unparsable body), which aborts the
whole fetch. -/
inductive PageResp (α : Type) where
  | ok (entities : List α)
  | fail (msg : String)
deriving DecidableEq

namespace Runs

/-- Page loop of `GetRuns` (src/qase/runs.go lines 249-307): pages 1 through
`maxPages = 1000` are requested in order; a failed page aborts with its
error; entities created after `afterDate` are accumulated; a short page
(fewer than `limit = 100` entities) ends the loop; running past `maxPages`
falls out of the loop and returns the accumulated runs with a nil error.
`remaining` is `maxPages - page + 1`, making the recursion structural.
Returns the result together with the number of the last page requested. -/
def getRunsLoop (server : Nat → PageResp Run) (afterDate : Int) :
    Nat → Nat → List Run → Except String (List Run) × Nat
  | 0, page, acc => (.ok acc, page - 1)
  | remaining + 1, page, acc =>
    match server page with
    | .fail msg => (.error msg, page)
    | .ok entities =>
      let acc := acc ++ entities.filter (fun r => afterDate < r.createdAt)
      if entities.length < 100 then (.ok acc, page)
      else getRunsLoop server afterDate remaining (page + 1) acc

/-- Mirrors `GetRuns` (src/qase/runs.go lines 249-307), with the last page
requested as the second component. -/
def GetRunsAux (server : Nat → PageResp Run) (afterDate : Int) :
    Except String (List Run) × Nat :=
  getRunsLoop server afterDate 1000 1 []

/-- The value `GetRuns` returns to its caller: note it carries no truncation
indicator of any kind. -/
def GetRuns (server : Nat → PageResp Run) (afterDate : Int) :
    Except String (List Run) :=
  (GetRunsAux server afterDate).1

end Runs

namespace Results

/-- Page loop of `GetRunResults` (src/qase/results.go lines 45-95): pages
are requested until a short page (fewer than `limit = 100` entities); the Go
loop has no page ceiling, so the embedding is fuel-indexed: `none` means the
loop is still running after `fuel` page requests. -/
def getRunResultsLoop (server : Nat → PageResp ResultRec) :
    Nat → Nat → List ResultRec → Option (Except String (List ResultRec))
  | 0, _, _ => none
  | fuel + 1, page, acc =>
    match server page with
    | .fail msg => some (.error msg)
    | .ok entities =>
      let acc := acc ++ entities
      if entities.length < 100 then some (.ok acc)
      else getRunResultsLoop server fuel (page + 1) acc

/-- Mirrors `GetRunResults` (src/qase/results.go lines 45-95), truncated to
`fuel` page requests: `none` means the function has not returned yet. -/
def GetRunResults (server : Nat → PageResp ResultRec) (fuel : Nat) :
    Option (Except String (List ResultRec)) :=
  getRunResultsLoop server fuel 1 []

end Results

/-- Per-run-group outcome, mirroring the fields of the `runResult` channel
message of src/unnamed/part_003 (lines 483-490) that the coordinator's
aggregation reads: success flag, items posted (or, in dry-run, would-be
posted) and items skipped for lack of mapping.  Failure messages send the
zero values, as the Go struct literal does. -/
structure RunOutcome where
  success : Bool
  results : Nat
  skipped : Nat
deriving DecidableEq

/-- The remote calls the per-run-group task of src/unnamed/part_003 can
issue, in the order they appear in the code.  `createOrGetRun` and
`createRun` can create a target run and `postBulkResults` posts results, so
those three are (potential) writes; `checkRunHasResults` and
`fetchExistingCaseIDs` (the fetch inside `FilterNewResults`) are reads. -/
inductive RemoteCall where
  | createOrGetRun
  | checkRunHasResults
  | fetchExistingCaseIDs
  | createRun
  | postBulkResults
deriving DecidableEq

/-- Which of the per-run-group remote calls are writes. -/
def RemoteCall.isWrite : RemoteCall → Bool
  | .createOrGetRun => true
  | .createRun => true
  | .postBulkResults => true
  | _ => false

/-- Remote-state oracle for one run-group task: the outcomes the target
workspace would give to each call the task can make. -/
structure RunEnv where
  createOrGetRun : Except String Run
  checkRunHasResults : Except String Bool
  existingRunResults : Except String (List ResultRec)
  createRun : Except String Run
  chunkResponses : Nat → Nat → AttemptResp

/-- Migration flags consumed by the run-group task. -/
structure RunConfig where
  dryRun : Bool
  idempotent : Bool
  bulkSize : Int
deriving DecidableEq

/-- Mirrors the per-run-group goroutine body of src/unnamed/part_003 (lines
500-610), from the `transformResults` call onwards (the title/description
derivation is cosmetic string formatting and is not modelled).  Returns the
`runResult` outcome sent back to the coordinator, together with the trace of
remote calls issued, in order.  In dry-run mode the task reports success
with the transformed counts and returns before any remote call; in
idempotent mode it finds-or-creates the target run, probes it for existing
results, filters the candidates when the probe is positive, and skips the
post when nothing is left; otherwise it creates a fresh run and posts
everything. -/
def processRun (cfg : RunConfig) (env : RunEnv) (results : List ResultRec)
    (caseMapping : List (Int × Int)) (statusMap : Option (List (String × String))) :
    RunOutcome × List RemoteCall :=
  let t := Part003.transformResults results caseMapping statusMap
  let bulkItems := t.1
  let skipped := t.2.1
  if cfg.dryRun then
    ({ success := true, results := bulkItems.length, skipped := skipped }, [])
  else if cfg.idempotent then
    match env.createOrGetRun with
    | .error _ =>
      ({ success := false, results := 0, skipped := 0 }, [.createOrGetRun])
    | .ok _ =>
      match env.checkRunHasResults with
      | .error _ =>
        ({ success := false, results := 0, skipped := 0 },
         [.createOrGetRun, .checkRunHasResults])
      | .ok hasResults =>
        if hasResults then
          match env.existingRunResults with
          | .error _ =>
            ({ success := false, results := 0, skipped := 0 },
             [.createOrGetRun, .checkRunHasResults, .fetchExistingCaseIDs])
          | .ok existing =>
            let bulkItems := FilterNewResults existing bulkItems
            if bulkItems = [] then
              ({ success := true, results := 0, skipped := skipped },
               [.createOrGetRun, .checkRunHasResults, .fetchExistingCaseIDs])
            else
              match (PostBulkResults env.chunkResponses bulkItems cfg.bulkSize).1 with
              | some _ =>
                ({ success := false, results := 0, skipped := 0 },
                 [.createOrGetRun, .checkRunHasResults, .fetchExistingCaseIDs,
                  .postBulkResults])
              | none =>
                ({ success := true, results := bulkItems.length,
                   skipped := skipped },
                 [.createOrGetRun, .checkRunHasResults, .fetchExistingCaseIDs,
                  .postBulkResults])
        else
          if bulkItems = [] then
            ({ success := true, results := 0, skipped := skipped },
             [.createOrGetRun, .checkRunHasResults])
          else
            match (PostBulkResults env.chunkResponses bulkItems cfg.bulkSize).1 with
            | some _ =>
              ({ success := false, results := 0, skipped := 0 },
               [.createOrGetRun, .checkRunHasResults, .postBulkResults])
            | none =>
              ({ success := true, results := bulkItems.length,
                 skipped := skipped },
               [.createOrGetRun, .checkRunHasResults, .postBulkResults])
  else
    match env.createRun with
    | .error _ =>
      ({ success := false, results := 0, skipped := 0 }, [.createRun])
    | .ok _ =>
      match (PostBulkResults env.chunkResponses bulkItems cfg.bulkSize).1 with
      | some _ =>
        ({ success := false, results := 0, skipped := 0 },
         [.createRun, .postBulkResults])
      | none =>
        ({ success := true, results := bulkItems.length, skipped := skipped },
         [.createRun, .postBulkResults])

/-- Attempt oracle of the C1 scenario: the server answers 503 on the first
three post attempts of the chunk and 200 with a well-formed successful body
on the fourth. -/
def att503ThenOk : Nat → AttemptResp := fun attempt =>
  if attempt < 3 then .resp 503 "Service Unavailable" none
  else .resp 200 "ok" (some { status := true })

/-- Chunk/attempt oracle in which every post attempt succeeds. -/
def attAllOk : Nat → Nat → AttemptResp :=
  fun _ _ => .resp 200 "ok" (some { status := true })

/-- Five concrete bulk items, for exercising the chunking loop. -/
def items5 : List BulkItem :=
  [⟨101, "passed", none, ""⟩, ⟨102, "failed", none, ""⟩,
   ⟨103, "passed", none, ""⟩, ⟨104, "blocked", none, ""⟩,
   ⟨105, "passed", none, ""⟩]

/-- A full page of 100 runs, all created after time 0. -/
def fullRunPage : List Run :=
  List.replicate 100 { id := 1, title := "run", description := "", status := 0,
                       createdAt := 1, updatedAt := 1, startTime := 1,
                       endTime := 1 }

/-- A runs server that returns a full page forever (its collection never
ends). -/
def serverRunsA : Nat → PageResp Run := fun _ => .ok fullRunPage

/-- A runs server whose collection genuinely ends after page 1000: pages
beyond the `GetRuns` ceiling are empty. -/
def serverRunsB : Nat → PageResp Run := fun p =>
  if p ≤ 1000 then .ok fullRunPage else .ok []

/-- A concrete result record. -/
def dummyResult : ResultRec :=
  { hash := "", comment := "", runId := 1, caseId := 1, status := "passed",
    time := none, timeSpentMs := 0, endTime := "" }

/-- A results server that returns a full page forever. -/
def serverFullResults : Nat → PageResp ResultRec :=
  fun _ => .ok (List.replicate 100 dummyResult)

/-- A concrete target run, as returned by a find-or-create oracle. -/
def run42 : Run :=
  { id := 42, title := "Migrated Run 10", description := "", status := 0,
    createdAt := 0, updatedAt := 0, startTime := 0, endTime := 0 }

/-- An existing result in the target run for target case 105. -/
def existing105 : ResultRec :=
  { hash := "h", comment := "", runId := 42, caseId := 105,
    status := "failed", time := none, timeSpentMs := 0, endTime := "" }

/-- A source record for source case 5. -/
def rec5 : ResultRec :=
  { hash := "", comment := "c", runId := 10, caseId := 5, status := "passed",
    time := none, timeSpentMs := 0, endTime := "" }

/-- The case mapping sending source case 5 to target case 105. -/
def mapC8 : List (Int × Int) := [(5, 105)]

/-- Remote-state oracle for the run-group scenarios: the target run exists,
already has results, among them one for case 105, and every write would
succeed. -/
def envC8 : RunEnv :=
  { createOrGetRun := .ok run42, checkRunHasResults := .ok true,
    existingRunResults := .ok [existing105], createRun := .ok run42,
    chunkResponses := attAllOk }

/-- Dry-run, idempotent configuration. -/
def cfgDry : RunConfig := { dryRun := true, idempotent := true, bulkSize := 200 }

/-- Live (non-dry-run), idempotent configuration. -/
def cfgWet : RunConfig := { dryRun := false, idempotent := true, bulkSize := 200 }

/-- A filesystem oracle for the CSV-mapping scenario: one readable file with
a header row and a single malformed data row (only one column), which the
row loop skips, yielding an empty mapping. -/
def csvFsExample : String → Option (List (List String)) :=
  fun _ => some [["source_case_id", "target_case_id"], ["123"]]

/-- A target case whose only custom field has id 7, so a build with a
different configured field id maps nothing. -/
def tgtCaseNoMatch : Case :=
  { id := 1, title := "case", customFields := [{ id := 7, value := "3" }] }

/-- The record of the clamping example: elapsed time 40,000,000,000 ms, i.e.
40,000,000 seconds. -/
def rec40M : ResultRec :=
  { hash := "", comment := "slow", runId := 10, caseId := 5,
    status := "failed", time := none, timeSpentMs := 40000000000,
    endTime := "" }

/-- Candidate items for the idempotency filter: one colliding with the
existing result for case 105 (with a different status, comment and time),
one new. -/
def candsC2 : List BulkItem :=
  [{ caseId := 105, status := "passed", time := some 3, comment := "retried" },
   { caseId := 106, status := "passed", time := none, comment := "" }]

/-- An existing result for the same case 105 but with a different status,
comment and time than `existing105`. -/
def existing105v2 : ResultRec :=
  { hash := "h2", comment := "flaky", runId := 42, caseId := 105,
    status := "passed", time := some 9, timeSpentMs := 9000, endTime := "" }

/-- Status translation as the spec words it, for an optional (possibly
nil) table: unchanged when no table is configured or the table has no
exact entry, translated otherwise. -/
def statusTranslatedOpt (sm : Option (List (String × String))) (s : String) :
    String :=
  match sm with
  | none => s
  | some t =>
    match assocLookup t s with
    | some v => v
    | none => s

/-- Status translation as the spec words it, for an always-present table. -/
def statusTranslated (sm : List (String × String)) (s : String) : String :=
  match assocLookup sm s with
  | some v => v
  | none => s

/-- Time normalization of the part_003 transform as the spec words it: a
positive seconds value is clamped at one year, zero or missing time is
omitted. -/
def clampSeconds (t : Option Int) : Option Int :=
  match t with
  | some t => if 0 < t then some (min t maxTimeSeconds) else none
  | none => none

/-- Time normalization of the fetch-results transform as the spec words it:
a positive milliseconds value is converted to seconds and clamped at one
year, zero is omitted. -/
def msToSeconds (ms : Int) : Option Int :=
  if 0 < ms then some (min (ms / 1000) maxTimeSeconds) else none

/-- Every error `postChunk` can produce is a `fmt.Errorf` value, never the
typed `*httpError` that `isRetryableError` tests for, so no error of the
bulk poster is ever classified retryable. -/
theorem postChunk_never_retryable (a : AttemptResp) (e : GoErr)
    (h : postChunk a = some e) : isRetryableError e = false := by
  cases a with
  | transportErr msg =>
    simp only [postChunk, Option.some.injEq] at h
    subst h
    rfl
  | resp statusCode rawBody parsed =>
    simp only [postChunk] at h
    split at h
    · simp only [Option.some.injEq] at h
      subst h
      rfl
    · cases parsed with
      | none =>
        simp only [Option.some.injEq] at h
        subst h
        rfl
      | some b =>
        simp only at h
        split at h
        · simp only [Option.some.injEq] at h
          subst h
          rfl
        · exact absurd h (by simp)

/-- One unfolding step of the retry loop. -/
theorem postChunkWithRetryGo_succ (att : Nat → AttemptResp)
    (chunkNum totalChunks r a : Nat) (slept : List Nat) :
    postChunkWithRetryGo att chunkNum totalChunks (r + 1) a slept =
      match postChunk (att a) with
      | none => (none, a + 1, slept)
      | some e =>
        if isRetryableError e then
          if a < backoffDelays.length - 1 then
            postChunkWithRetryGo att chunkNum totalChunks r (a + 1)
              (slept ++ [backoffDelays.getD a 0])
          else
            postChunkWithRetryGo att chunkNum totalChunks r (a + 1) slept
        else (some e, a + 1, slept) := rfl

/-- The retry loop always stops after its first attempt: whatever the
server answers, `postChunkWithRetry` makes exactly one post attempt and
sleeps no backoff delay, because the error `postChunk` hands it never
passes `isRetryableError`. -/
theorem postChunkWithRetry_one_attempt (att : Nat → AttemptResp)
    (chunkNum totalChunks : Nat) :
    (postChunkWithRetry att chunkNum totalChunks).2.1 = 1 ∧
    (postChunkWithRetry att chunkNum totalChunks).2.2 = [] := by
  unfold postChunkWithRetry
  rw [show backoffDelays.length = 3 + 1 from rfl, postChunkWithRetryGo_succ]
  cases h : postChunk (att 0) with
  | none => exact ⟨rfl, rfl⟩
  | some e =>
    simp [postChunk_never_retryable (att 0) e h]

/-- C1.  The claim says a chunk failing with a retryable status (429/5xx)
is retried under the 200ms/1s/3s/5s backoff sequence, so that a chunk
failing with 503 on its first three attempts and succeeding on the fourth
is posted exactly once after three delays.  The code does the opposite: a
503 answer makes `postChunk` return a `fmt.Errorf` error, `isRetryableError`
only recognises the `*httpError` type — which no code path ever constructs —
so the 503 chunk fails terminally after exactly one attempt and zero
delays.  The retry machinery is dead code: for every attempt oracle the
loop makes exactly one attempt. -/
theorem C1_retry_is_dead_code :
    postChunkWithRetry att503ThenOk 1 1 =
      (some (.genericErr "API request failed with status 503: Service Unavailable"),
       1, []) ∧
    (∀ att chunkNum totalChunks,
      (postChunkWithRetry att chunkNum totalChunks).2.1 = 1 ∧
      (postChunkWithRetry att chunkNum totalChunks).2.2 = []) := by
  exact ⟨rfl, postChunkWithRetry_one_attempt⟩

/-- Membership in the fold that builds the existing-case-id set is
membership in the accumulated set or among the records' case ids. -/
theorem mem_existing_fold (rs : List ResultRec) :
    ∀ (acc : List Int) (x : Int),
      x ∈ rs.foldl (fun s r => if r.caseId ∈ s then s else s ++ [r.caseId]) acc ↔
        x ∈ acc ∨ x ∈ rs.map (fun r => r.caseId) := by
  induction rs with
  | nil => intro acc x; simp
  | cons r rest ih =>
    intro acc x
    rw [List.foldl_cons, ih]
    by_cases hmem : r.caseId ∈ acc
    · simp only [hmem, if_true, List.map_cons, List.mem_cons]
      constructor
      · tauto
      · rintro (h | h | h)
        · tauto
        · subst h; tauto
        · tauto
    · simp only [hmem, if_false, List.mem_append, List.mem_singleton,
        List.map_cons, List.mem_cons]
      tauto

/-- The existing-case-id set contains exactly the case ids of the run's
results. -/
theorem mem_getExistingCaseIDs (existing : List ResultRec) (x : Int) :
    x ∈ getExistingCaseIDs existing ↔ x ∈ existing.map (fun r => r.caseId) := by
  simpa [getExistingCaseIDs] using mem_existing_fold existing [] x

/-- The candidate loop is `List.filter` on non-membership. -/
theorem filterLoop_eq_filter (ids : List Int) (l : List BulkItem) :
    filterLoop ids l = l.filter (fun c => !(c.caseId ∈ ids : Bool)) := by
  induction l with
  | nil => rfl
  | cons r rest ih =>
    by_cases h : r.caseId ∈ ids
    · simp [filterLoop, h, ih]
    · simp [filterLoop, h, ih]

/-- C2.  The idempotency filter returns exactly those candidates whose case
id has no result yet in the target run, in their original relative order,
and the decision is keyed on case id only: an existing result with the same
case id removes a candidate regardless of its status, comment or time, and
replacing the run's existing results by any list with the same case ids
leaves the outcome unchanged. -/
theorem C2_idempotency_filter (existing : List ResultRec)
    (candidates : List BulkItem) :
    FilterNewResults existing candidates =
      candidates.filter
        (fun c => !(existing.any (fun e => e.caseId == c.caseId))) ∧
    (FilterNewResults existing candidates).Sublist candidates ∧
    ∀ existing2 : List ResultRec,
      existing2.map (fun r => r.caseId) = existing.map (fun r => r.caseId) →
      FilterNewResults existing2 candidates =
        FilterNewResults existing candidates := by
  have hpred : ∀ ex : List ResultRec, ∀ c : BulkItem,
      (decide (c.caseId ∈ getExistingCaseIDs ex)) =
        ex.any (fun e => e.caseId == c.caseId) := by
    intro ex c
    rw [Bool.eq_iff_iff]
    simp only [decide_eq_true_eq, mem_getExistingCaseIDs, List.mem_map,
      List.any_eq_true, beq_iff_eq]
  have hmain : ∀ ex : List ResultRec,
      FilterNewResults ex candidates =
        candidates.filter (fun c => !(ex.any (fun e => e.caseId == c.caseId))) := by
    intro ex
    rw [FilterNewResults, filterLoop_eq_filter]
    apply List.filter_congr
    intro c _
    rw [hpred ex c]
  refine ⟨hmain existing, ?_, ?_⟩
  · rw [hmain existing]; exact List.filter_sublist candidates
  · intro ex2 hids
    rw [FilterNewResults, FilterNewResults, filterLoop_eq_filter,
      filterLoop_eq_filter]
    apply List.filter_congr
    intro c _
    have : c.caseId ∈ getExistingCaseIDs ex2 ↔
        c.caseId ∈ getExistingCaseIDs existing := by
      rw [mem_getExistingCaseIDs, mem_getExistingCaseIDs, hids]
    simp [this]

/-- Witness for C2 at concrete inputs: the candidate for case 105 is
removed (the run already has a 105 result, with different status, comment
and time), the candidate for case 106 is kept, and swapping the existing
results for others with the same case ids changes nothing. -/
theorem C2_idempotency_filter_witness :
    FilterNewResults [existing105] candsC2 =
      candsC2.filter
        (fun c => !([existing105].any (fun e => e.caseId == c.caseId))) ∧
    FilterNewResults [existing105v2] candsC2 =
      FilterNewResults [existing105] candsC2 := by
  exact ⟨(C2_idempotency_filter [existing105] candsC2).1,
    (C2_idempotency_filter [existing105] candsC2).2.2 [existing105v2]
      (by rfl)⟩

/-- Functional characterization of the part_003 transform: produced items,
skip count and clamp warnings as `filterMap`/`filter` over the input
records. -/
theorem part003_transform_eq (caseMapping : List (Int × Int))
    (statusMap : Option (List (String × String))) (results : List ResultRec) :
    Part003.transformResults results caseMapping statusMap =
      (results.filterMap (fun r =>
          (assocLookup caseMapping r.caseId).map (fun tgt =>
            { caseId := tgt, status := statusTranslatedOpt statusMap r.status,
              time := clampSeconds r.time, comment := r.comment })),
       (results.filter
          (fun r => assocLookup caseMapping r.caseId = none)).length,
       results.filterMap (fun r =>
          match assocLookup caseMapping r.caseId, r.time with
          | some _, some t =>
            if 0 < t ∧ maxTimeSeconds < t then some r.caseId else none
          | _, _ => none)) := by
  induction results with
  | nil => rfl
  | cons r rest ih =>
    simp only [Part003.transformResults, ih]
    cases h : assocLookup caseMapping r.caseId with
    | none => simp [List.filterMap_cons, h]
    | some tgt =>
      cases ht : r.time with
      | none =>
        simp [List.filterMap_cons, h, ht, clampSeconds, statusTranslatedOpt]
      | some t =>
        by_cases hpos : 0 < t
        · by_cases hclamp : maxTimeSeconds < t
          · simp [List.filterMap_cons, h, ht, hpos, hclamp, clampSeconds,
              statusTranslatedOpt, min_eq_right (le_of_lt hclamp)]
          · simp [List.filterMap_cons, h, ht, hpos, hclamp, clampSeconds,
              statusTranslatedOpt, min_eq_left (le_of_not_lt hclamp)]
        · simp [List.filterMap_cons, h, ht, hpos, clampSeconds,
            statusTranslatedOpt]

/-- Functional characterization of the src/main.go transform. -/
theorem mainGo_transform_eq (caseMapping : List (Int × Int))
    (statusMap : Option (List (String × String))) (results : List ResultRec) :
    MainGo.transformResults results caseMapping statusMap =
      (results.filterMap (fun r =>
          (assocLookup caseMapping r.caseId).map (fun tgt =>
            { caseId := tgt, status := statusTranslatedOpt statusMap r.status,
              time := r.time, comment := r.comment })),
       (results.filter
          (fun r => assocLookup caseMapping r.caseId = none)).length) := by
  induction results with
  | nil => rfl
  | cons r rest ih =>
    simp only [MainGo.transformResults, ih]
    cases h : assocLookup caseMapping r.caseId with
    | none => simp [List.filterMap_cons, h]
    | some tgt => simp [List.filterMap_cons, h, statusTranslatedOpt]

/-- Functional characterization of the fetch-results transform. -/
theorem fetchResults_transform_eq (caseMapping : List (Int × Int))
    (statusMap : List (String × String)) (results : List ResultRec) :
    FetchResults.transformResults results caseMapping statusMap =
      (results.filterMap (fun r =>
          (assocLookup caseMapping r.caseId).map (fun tgt =>
            { caseId := tgt, status := statusTranslated statusMap r.status,
              time := msToSeconds r.timeSpentMs, comment := r.comment })),
       (results.filter
          (fun r => assocLookup caseMapping r.caseId = none)).length,
       results.filterMap (fun r =>
          match assocLookup caseMapping r.caseId with
          | some _ =>
            if (0 : Int) < r.timeSpentMs ∧ maxTimeSeconds < r.timeSpentMs / 1000
            then some r.caseId
            else none
          | none => none)) := by
  induction results with
  | nil => rfl
  | cons r rest ih =>
    simp only [FetchResults.transformResults, ih]
    cases h : assocLookup caseMapping r.caseId with
    | none => simp [List.filterMap_cons, h]
    | some tgt =>
      by_cases hpos : 0 < r.timeSpentMs
      · by_cases hclamp : maxTimeSeconds < r.timeSpentMs / 1000
        · simp [List.filterMap_cons, h, hpos, hclamp, msToSeconds,
            statusTranslated, min_eq_right (le_of_lt hclamp)]
        · simp [List.filterMap_cons, h, hpos, hclamp, msToSeconds,
            statusTranslated, min_eq_left (le_of_not_lt hclamp)]
      · simp [List.filterMap_cons, h, hpos, msToSeconds, statusTranslated]

/-- The records a `filterMap` keeps (through a per-record post-map) and the
records sent to `none` account for the whole input. -/
theorem filterMap_map_length_add {α β γ : Type} [DecidableEq β]
    (f : α → Option β) (g : α → β → γ) (l : List α) :
    (l.filterMap (fun a => (f a).map (g a))).length +
      (l.filter (fun a => f a = none)).length = l.length := by
  induction l with
  | nil => rfl
  | cons a rest ih =>
    cases h : f a with
    | none => simp [List.filterMap_cons, h]; omega
    | some b => simp [List.filterMap_cons, h]; omega

/-- C3.  Each transform produces exactly one bulk item, carrying the mapped
target case id, for every record whose case id is a key of the case
mapping; it skips (counting one each) exactly the records whose case id is
not a key; and items produced plus records skipped equals the records
given.  Proven for the src/unnamed/part_003 variant and the src/main.go
variant. -/
theorem C3_mapping_completeness (results : List ResultRec)
    (caseMapping : List (Int × Int))
    (statusMap : Option (List (String × String))) :
    ((Part003.transformResults results caseMapping statusMap).1.map
        (fun b => b.caseId) =
      results.filterMap (fun r => assocLookup caseMapping r.caseId)) ∧
    ((Part003.transformResults results caseMapping statusMap).2.1 =
      (results.filter
        (fun r => assocLookup caseMapping r.caseId = none)).length) ∧
    ((Part003.transformResults results caseMapping statusMap).1.length +
        (Part003.transformResults results caseMapping statusMap).2.1 =
      results.length) ∧
    ((MainGo.transformResults results caseMapping statusMap).1.map
        (fun b => b.caseId) =
      results.filterMap (fun r => assocLookup caseMapping r.caseId)) ∧
    ((MainGo.transformResults results caseMapping statusMap).2 =
      (results.filter
        (fun r => assocLookup caseMapping r.caseId = none)).length) ∧
    ((MainGo.transformResults results caseMapping statusMap).1.length +
        (MainGo.transformResults results caseMapping statusMap).2 =
      results.length) := by
  rw [part003_transform_eq, mainGo_transform_eq]
  refine ⟨?_, rfl, ?_, ?_, rfl, ?_⟩
  · rw [List.map_filterMap]
    apply List.filterMap_congr
    intro r _
    cases assocLookup caseMapping r.caseId <;> rfl
  · dsimp only
    exact filterMap_map_length_add (fun r => assocLookup caseMapping r.caseId)
      (fun r tgt =>
        ({ caseId := tgt, status := statusTranslatedOpt statusMap r.status,
           time := clampSeconds r.time, comment := r.comment } : BulkItem))
      results
  · rw [List.map_filterMap]
    apply List.filterMap_congr
    intro r _
    cases assocLookup caseMapping r.caseId <;> rfl
  · dsimp only
    exact filterMap_map_length_add (fun r => assocLookup caseMapping r.caseId)
      (fun r tgt =>
        ({ caseId := tgt, status := statusTranslatedOpt statusMap r.status,
           time := r.time, comment := r.comment } : BulkItem)) results

/-- C10.  For every record the transforms emit, the item's status equals
the source status unchanged when no translation table is configured or the
table has no entry for that exact status, and equals the table's value when
an exact entry exists.  Proven for the src/main.go variant (nil-able table)
and the src/cmd/fetch-results/main.go variant (always-present table). -/
theorem C10_status_translation (results : List ResultRec)
    (caseMapping : List (Int × Int))
    (statusMap : Option (List (String × String)))
    (statusMap2 : List (String × String)) :
    ((MainGo.transformResults results caseMapping statusMap).1.map
        (fun b => b.status) =
      results.filterMap (fun r =>
        (assocLookup caseMapping r.caseId).map (fun _ =>
          match statusMap with
          | none => r.status
          | some t =>
            match assocLookup t r.status with
            | some v => v
            | none => r.status))) ∧
    ((FetchResults.transformResults results caseMapping statusMap2).1.map
        (fun b => b.status) =
      results.filterMap (fun r =>
        (assocLookup caseMapping r.caseId).map (fun _ =>
          match assocLookup statusMap2 r.status with
          | some v => v
          | none => r.status))) := by
  rw [mainGo_transform_eq, fetchResults_transform_eq]
  constructor
  · dsimp only
    rw [List.map_filterMap]
    apply List.filterMap_congr
    intro r _
    cases assocLookup caseMapping r.caseId <;> rfl
  · dsimp only
    rw [List.map_filterMap]
    apply List.filterMap_congr
    intro r _
    cases assocLookup caseMapping r.caseId <;> rfl

/-- C5.  In the fetch-results transform, every mapped record with a
positive elapsed time yields an item whose time is the elapsed time
converted from milliseconds to seconds and clamped at 31,536,000 seconds
(one year); a clamp emits a warning for that record (and the item is kept,
not rejected); a record with elapsed time 0 yields an item with no time
field.  At the claim's example, 40,000,000 seconds of elapsed time
(40,000,000,000 ms) is posted as 31,536,000 seconds with a warning. -/
theorem C5_time_clamping (results : List ResultRec)
    (caseMapping : List (Int × Int)) (statusMap : List (String × String)) :
    ((FetchResults.transformResults results caseMapping statusMap).1.map
        (fun b => b.time) =
      results.filterMap (fun r =>
        (assocLookup caseMapping r.caseId).map (fun _ =>
          if (0 : Int) < r.timeSpentMs then
            some (min (r.timeSpentMs / 1000) maxTimeSeconds)
          else none))) ∧
    ((FetchResults.transformResults results caseMapping statusMap).2.2 =
      results.filterMap (fun r =>
        match assocLookup caseMapping r.caseId with
        | some _ =>
          if (0 : Int) < r.timeSpentMs ∧ maxTimeSeconds < r.timeSpentMs / 1000
          then some r.caseId
          else none
        | none => none)) ∧
    (FetchResults.transformResults [rec40M] [(5, 105)] [] =
      ([{ caseId := 105, status := "failed", time := some 31536000,
          comment := "slow" }], 0, [5])) := by
  rw [fetchResults_transform_eq]
  refine ⟨?_, rfl, ?_⟩
  · dsimp only
    rw [List.map_filterMap]
    apply List.filterMap_congr
    intro r _
    cases assocLookup caseMapping r.caseId <;> simp [msToSeconds]
  · decide

/-- A case none of whose custom fields carries the configured field id
contributes no mapping pair. -/
theorem scanFields_none (cfID caseId : Int) (fields : List CustomField)
    (h : ∀ f ∈ fields, f.id ≠ cfID) :
    Mapping.scanFields cfID caseId fields = none := by
  induction fields with
  | nil => rfl
  | cons f rest ih =>
    have hf : f.id ≠ cfID := h f (by simp)
    simp only [Mapping.scanFields, hf, if_false]
    exact ih (fun g hg => h g (by simp [hg]))

/-- C7.  A missing required configuration value for the selected mapping
mode — custom field id 0 in annotation mode, empty table path in table
mode — is a fatal configuration error; whereas inputs that simply yield no
mapped pairs (no target case carries the configured field; every table data
row is malformed) produce an empty mapping with no error, which merely
makes the downstream transform skip 100% of the records. -/
theorem C7_mapping_failure_modes :
    (∀ tgtCases : List Case, Mapping.buildCustomFieldMapping tgtCases 0 =
      .error "custom field ID is required for custom_field mode") ∧
    (∀ fsRead : String → Option (List (List String)),
      Mapping.buildCSVMapping "" fsRead =
        .error "CSV path is required for csv mode") ∧
    (∀ (tgtCases : List Case) (cfID : Int), cfID ≠ 0 →
      (∀ c ∈ tgtCases, ∀ f ∈ c.customFields, f.id ≠ cfID) →
      Mapping.buildCustomFieldMapping tgtCases cfID = .ok []) ∧
    (Mapping.buildCSVMapping "mapping.csv" csvFsExample = .ok []) ∧
    (∀ (results : List ResultRec)
        (statusMap : Option (List (String × String))),
      Part003.transformResults results [] statusMap =
        ([], results.length, [])) := by
  refine ⟨fun _ => rfl, fun _ => rfl, ?_, ?_, ?_⟩
  case refine_2 =>
    simp [Mapping.buildCSVMapping, csvFsExample, Mapping.csvRowsFold]
  · intro tgtCases cfID hcf hnone
    simp only [Mapping.buildCustomFieldMapping, hcf, if_false]
    congr 1
    induction tgtCases with
    | nil => rfl
    | cons c rest ih =>
      rw [List.foldl_cons,
        scanFields_none cfID c.id c.customFields (hnone c (by simp))]
      exact ih (fun c hc => hnone c (by simp [hc]))
  · intro results statusMap
    rw [part003_transform_eq]
    simp [assocLookup]

/-- Witness for C7 at concrete inputs: field id 0 and empty path error
out; field id 9 over a case whose only field has id 7 yields an empty
mapping with no error, as does a CSV whose only data row is malformed; and
the downstream transform with the empty mapping skips its one record. -/
theorem C7_mapping_failure_modes_witness :
    Mapping.buildCustomFieldMapping [tgtCaseNoMatch] 0 =
      .error "custom field ID is required for custom_field mode" ∧
    Mapping.buildCSVMapping "" csvFsExample =
      .error "CSV path is required for csv mode" ∧
    Mapping.buildCustomFieldMapping [tgtCaseNoMatch] 9 = .ok [] ∧
    Mapping.buildCSVMapping "mapping.csv" csvFsExample = .ok [] ∧
    Part003.transformResults [rec5] [] none = ([], 1, []) := by
  obtain ⟨h1, h2, h3, h4, h5⟩ := C7_mapping_failure_modes
  exact ⟨h1 [tgtCaseNoMatch], h2 csvFsExample,
    h3 [tgtCaseNoMatch] 9 (by decide) (by decide), h4, h5 [rec5] none⟩

/-- C9.  `PostBulkResults` with an empty item list returns success (nil
error) immediately, issuing no chunk post call; and a chunk size ≤ 0 is
replaced by the default 200. -/
theorem C9_empty_and_default_chunk (att : Nat → Nat → AttemptResp)
    (items : List BulkItem) (chunkSize : Int) :
    (PostBulkResults att [] chunkSize = (none, [])) ∧
    (chunkSize ≤ 0 →
      PostBulkResults att items chunkSize = PostBulkResults att items 200) := by
  constructor
  · simp [PostBulkResults]
  · intro h
    by_cases hi : items = []
    · simp [PostBulkResults, hi]
    · simp [PostBulkResults, hi, h]

/-- Witness for C9 at chunk size -5 and a five-item list. -/
theorem C9_empty_and_default_chunk_witness :
    PostBulkResults attAllOk [] (-5) = (none, []) ∧
    PostBulkResults attAllOk items5 (-5) = PostBulkResults attAllOk items5 200 := by
  exact ⟨(C9_empty_and_default_chunk attAllOk items5 (-5)).1,
    (C9_empty_and_default_chunk attAllOk items5 (-5)).2 (by norm_num)⟩

/-- Unfolding: no items, no chunks. -/
theorem chunksOf_nil {α : Type} (k : Nat) : chunksOf k ([] : List α) = [] := by
  simp [chunksOf]

/-- Unfolding: the first chunk is the first `k` items. -/
theorem chunksOf_cons {α : Type} (k : Nat) (a : α) (rest : List α) :
    chunksOf k (a :: rest) =
      (a :: rest.take (k - 1)) :: chunksOf k (rest.drop (k - 1)) := by
  simp [chunksOf]

/-- Concatenating the chunks gives back the item list, each item exactly
once in order. -/
theorem chunksOf_flatten {α : Type} (k : Nat) (l : List α) :
    (chunksOf k l).flatten = l := by
  induction l using chunksOf.induct k with
  | case1 => simp [chunksOf_nil]
  | case2 a rest ih => rw [chunksOf_cons]; simp [ih]

/-- For a positive chunk size there are exactly ⌈length / k⌉ chunks. -/
theorem chunksOf_length {α : Type} (k : Nat) (hk : 1 ≤ k) (l : List α) :
    (chunksOf k l).length = (l.length + k - 1) / k := by
  induction l using chunksOf.induct k with
  | case1 =>
    simp only [chunksOf_nil, List.length_nil]
    rw [Nat.div_eq_of_lt (by omega)]
  | case2 a rest ih =>
    rw [chunksOf_cons]
    simp only [List.length_cons, List.length_drop] at ih ⊢
    rw [ih]
    by_cases hsmall : rest.length ≤ k - 1
    · have h1 : rest.length - (k - 1) = 0 := by omega
      have h2 : (0 + k - 1) / k = 0 := Nat.div_eq_of_lt (by omega)
      have h3 : rest.length + 1 + k - 1 = rest.length + 1 - 1 + k := by omega
      rw [h1, h2, h3, Nat.add_div_right _ (by omega),
        Nat.div_eq_of_lt (by omega)]
    · have h1 : rest.length - (k - 1) + k - 1 =
        rest.length - (k - 1) - 1 + k := by omega
      have h2 : rest.length + 1 + k - 1 = rest.length - (k - 1) - 1 + k + k := by
        omega
      rw [h1, h2, Nat.add_div_right _ (by omega), Nat.add_div_right _ (by omega),
        Nat.add_div_right _ (by omega)]

/-- Unfolding: no items, no posts. -/
theorem postChunks_nil (att : Nat → Nat → AttemptResp) (k tC idx : Nat) :
    postChunks att k tC idx [] = (none, []) := by
  simp [postChunks]

/-- Unfolding: a failing first chunk is wrapped and posting stops. -/
theorem postChunks_cons_fail (att : Nat → Nat → AttemptResp) (k tC idx : Nat)
    (a : BulkItem) (rest : List BulkItem) (e : GoErr)
    (h : (postChunkWithRetry (att idx) (idx + 1) tC).1 = some e) :
    postChunks att k tC idx (a :: rest) =
      (some (wrapChunkErr (idx + 1) e), [a :: rest.take (k - 1)]) := by
  simp [postChunks, h]

/-- Unfolding: a successful first chunk post continues with the rest. -/
theorem postChunks_cons_ok (att : Nat → Nat → AttemptResp) (k tC idx : Nat)
    (a : BulkItem) (rest : List BulkItem)
    (h : (postChunkWithRetry (att idx) (idx + 1) tC).1 = none) :
    postChunks att k tC idx (a :: rest) =
      ((postChunks att k tC (idx + 1) (rest.drop (k - 1))).1,
       (a :: rest.take (k - 1)) ::
         (postChunks att k tC (idx + 1) (rest.drop (k - 1))).2) := by
  simp [postChunks, h]

/-- When every chunk's retry call succeeds, the posting loop returns nil
and posts exactly the chunk decomposition. -/
theorem postChunks_all_ok (att : Nat → Nat → AttemptResp) (k tC : Nat) :
    ∀ (idx : Nat) (l : List BulkItem),
      (∀ j, j < (chunksOf k l).length →
        (postChunkWithRetry (att (idx + j)) (idx + j + 1) tC).1 = none) →
      postChunks att k tC idx l = (none, chunksOf k l) := by
  intro idx l
  induction idx, l using postChunks.induct att k tC with
  | case1 idx => intro _; simp [postChunks_nil, chunksOf_nil]
  | case2 idx a rest e hsome =>
    intro h
    have h0 := h 0 (by rw [chunksOf_cons]; simp)
    rw [Nat.add_zero] at h0
    rw [h0] at hsome
    exact absurd hsome (by simp)
  | case3 idx a rest hnone ih =>
    intro h
    rw [postChunks_cons_ok att k tC idx a rest hnone, chunksOf_cons]
    have hrec := ih (fun j hj => by
      have hh := h (j + 1) (by
        rw [chunksOf_cons]
        simpa using Nat.succ_lt_succ hj)
      rwa [show idx + (j + 1) = idx + 1 + j by omega] at hh)
    rw [hrec]

/-- A chunk whose retry call fails terminally aborts the loop: only the
chunks up to and including the failing one are posted, and the wrapped
error is returned. -/
theorem postChunks_abort (att : Nat → Nat → AttemptResp) (k tC : Nat) :
    ∀ (idx : Nat) (l : List BulkItem) (j : Nat) (e : GoErr),
      j < (chunksOf k l).length →
      (∀ i, i < j →
        (postChunkWithRetry (att (idx + i)) (idx + i + 1) tC).1 = none) →
      (postChunkWithRetry (att (idx + j)) (idx + j + 1) tC).1 = some e →
      postChunks att k tC idx l =
        (some (wrapChunkErr (idx + j + 1) e), (chunksOf k l).take (j + 1)) := by
  intro idx l
  induction idx, l using postChunks.induct att k tC with
  | case1 idx =>
    intro j e hj _ _
    rw [chunksOf_nil] at hj
    exact absurd hj (by simp)
  | case2 idx a rest e' hsome =>
    intro j e hj hok hfail
    cases j with
    | zero =>
      rw [Nat.add_zero] at hfail
      have he : e' = e := Option.some.inj (hsome.symm.trans hfail)
      subst he
      rw [postChunks_cons_fail att k tC idx a rest e' hsome, chunksOf_cons]
      simp
    | succ j' =>
      have h0 := hok 0 (Nat.succ_pos j')
      rw [Nat.add_zero] at h0
      rw [h0] at hsome
      exact absurd hsome (by simp)
  | case3 idx a rest hnone ih =>
    intro j e hj hok hfail
    cases j with
    | zero =>
      rw [Nat.add_zero] at hfail
      rw [hfail] at hnone
      exact absurd hnone (by simp)
    | succ j' =>
      rw [postChunks_cons_ok att k tC idx a rest hnone, chunksOf_cons]
      have hj' : j' < (chunksOf k (rest.drop (k - 1))).length := by
        rw [chunksOf_cons] at hj
        simpa using Nat.lt_of_succ_lt_succ hj
      have hok' : ∀ i, i < j' →
          (postChunkWithRetry (att (idx + 1 + i)) (idx + 1 + i + 1) tC).1 =
            none := by
        intro i hi
        have hh := hok (i + 1) (Nat.succ_lt_succ hi)
        rwa [show idx + (i + 1) = idx + 1 + i by omega] at hh
      have hfail' : (postChunkWithRetry (att (idx + 1 + j'))
          (idx + 1 + j' + 1) tC).1 = some e := by
        rwa [show idx + (j' + 1) = idx + 1 + j' by omega] at hfail
      rw [ih j' e hj' hok' hfail',
        show idx + (j' + 1) + 1 = idx + 1 + j' + 1 by omega]
      simp [List.take_succ_cons]

/-- For a non-empty item list and positive chunk size, `PostBulkResults`
is the posting loop over the whole list at chunk index 0. -/
theorem PostBulkResults_pos (att : Nat → Nat → AttemptResp)
    (items : List BulkItem) (chunkSize : Int) (hne : items ≠ [])
    (hpos : 0 < chunkSize) :
    PostBulkResults att items chunkSize =
      postChunks att chunkSize.toNat
        ((items.length + chunkSize.toNat - 1) / chunkSize.toNat) 0 items := by
  simp [PostBulkResults, hne, show ¬(chunkSize ≤ 0) by omega]

/-- C4.  For every non-empty list of N items and chunk size K > 0, the bulk
poster decomposes the items into exactly ⌈N/K⌉ chunks whose concatenation
is the input list with each item exactly once; when every chunk's post
succeeds it posts exactly those chunks and returns nil; and when a chunk's
retry call fails terminally, the failure (wrapped with the chunk number)
aborts posting — only the chunks up to the failing one were posted, none
after it. -/
theorem C4_chunking_and_abort (att : Nat → Nat → AttemptResp)
    (items : List BulkItem) (chunkSize : Int) (hpos : 0 < chunkSize)
    (hne : items ≠ []) :
    ((chunksOf chunkSize.toNat items).length =
      (items.length + chunkSize.toNat - 1) / chunkSize.toNat) ∧
    ((chunksOf chunkSize.toNat items).flatten = items) ∧
    ((∀ j, j < (chunksOf chunkSize.toNat items).length →
        (postChunkWithRetry (att j) (j + 1)
          ((items.length + chunkSize.toNat - 1) / chunkSize.toNat)).1 = none) →
      PostBulkResults att items chunkSize =
        (none, chunksOf chunkSize.toNat items)) ∧
    (∀ j e, j < (chunksOf chunkSize.toNat items).length →
      (∀ i, i < j →
        (postChunkWithRetry (att i) (i + 1)
          ((items.length + chunkSize.toNat - 1) / chunkSize.toNat)).1 = none) →
      (postChunkWithRetry (att j) (j + 1)
        ((items.length + chunkSize.toNat - 1) / chunkSize.toNat)).1 = some e →
      PostBulkResults att items chunkSize =
        (some (wrapChunkErr (j + 1) e),
         (chunksOf chunkSize.toNat items).take (j + 1))) := by
  have hk1 : 1 ≤ chunkSize.toNat := by omega
  refine ⟨chunksOf_length chunkSize.toNat hk1 items,
    chunksOf_flatten chunkSize.toNat items, ?_, ?_⟩
  · intro hall
    rw [PostBulkResults_pos att items chunkSize hne hpos]
    apply postChunks_all_ok
    intro j hj
    simpa using hall j hj
  · intro j e hj hok hfail
    rw [PostBulkResults_pos att items chunkSize hne hpos]
    have := postChunks_abort att chunkSize.toNat
      ((items.length + chunkSize.toNat - 1) / chunkSize.toNat) 0 items j e hj
      (fun i hi => by simpa using hok i hi) (by simpa using hfail)
    simpa using this

/-- Witness for C4: five items with chunk size 2 are posted as exactly
three chunks — ⌈5/2⌉ — whose concatenation is the item list, with nil
error when every chunk call succeeds. -/
theorem C4_chunking_and_abort_witness :
    PostBulkResults attAllOk items5 2 = (none, chunksOf 2 items5) ∧
    (chunksOf 2 items5).length = 3 ∧
    (chunksOf 2 items5).flatten = items5 := by
  have h := C4_chunking_and_abort attAllOk items5 2 (by norm_num)
    (by simp [items5])
  refine ⟨h.2.2.1 (fun j hj => rfl), ?_, h.2.1⟩
  simp [items5, chunksOf_cons, chunksOf_nil]

/-- The `GetRuns` page loop only consults the server on the pages it may
request: two servers agreeing on that window produce identical loop
results. -/
theorem getRunsLoop_congr (A B : Nat → PageResp Run) (d : Int) :
    ∀ (remaining page : Nat) (acc : List Run),
      (∀ p, page ≤ p → p < page + remaining → A p = B p) →
      Runs.getRunsLoop A d remaining page acc =
        Runs.getRunsLoop B d remaining page acc := by
  intro remaining
  induction remaining with
  | zero => intro page acc _; rfl
  | succ r ih =>
    intro page acc h
    have hp : A page = B page := h page le_rfl (by omega)
    cases hB : B page with
    | fail m => simp only [Runs.getRunsLoop]; rw [hp, hB]
    | ok entities =>
      simp only [Runs.getRunsLoop]
      rw [hp, hB]
      by_cases hlen : entities.length < 100
      · simp [hlen]
      · simp only [hlen, if_false]
        exact ih (page + 1) _ (fun p h1 h2 => h p (by omega) (by omega))

/-- The `GetRuns` page loop never requests a page beyond its window. -/
theorem getRunsLoop_lastPage (A : Nat → PageResp Run) (d : Int) :
    ∀ (remaining page : Nat) (acc : List Run),
      (Runs.getRunsLoop A d remaining page acc).2 ≤ page + remaining - 1 := by
  intro remaining
  induction remaining with
  | zero => intro page acc; simp [Runs.getRunsLoop]
  | succ r ih =>
    intro page acc
    cases hA : A page with
    | fail m => simp only [Runs.getRunsLoop]; rw [hA]; dsimp only; omega
    | ok entities =>
      simp only [Runs.getRunsLoop]
      rw [hA]
      by_cases hlen : entities.length < 100
      · simp only [hlen, if_true]; omega
      · simp only [hlen, if_false]
        have := ih (page + 1)
          (acc ++ entities.filter (fun r => d < r.createdAt))
        omega

/-- Against a server that always returns a full page, the `GetRunResults`
loop never terminates, whatever the fuel. -/
theorem getRunResultsLoop_full_none :
    ∀ (fuel page : Nat) (acc : List ResultRec),
      Results.getRunResultsLoop serverFullResults fuel page acc = none := by
  intro fuel
  induction fuel with
  | zero => intro page acc; rfl
  | succ n ih =>
    intro page acc
    simp only [Results.getRunResultsLoop, serverFullResults]
    simp [ih]

/-- C6 fails on the code.  A server whose collection never ends and a
server whose collection genuinely ends right after page 1000 give `GetRuns`
identical return values — the ceiling-truncated fetch returns the partial
collection with a nil error and no flag, indistinguishable from a complete
fetch, so the caller cannot detect the truncation; and `GetRunResults` has
no page ceiling at all: against a full-page server it is still looping
after 1500 pages. -/
theorem C6_truncation_counterexample :
    Runs.GetRuns serverRunsA 0 = Runs.GetRuns serverRunsB 0 ∧
    serverRunsA 1001 ≠ serverRunsB 1001 ∧
    Results.GetRunResults serverFullResults 1500 = none := by
  refine ⟨?_, ?_, getRunResultsLoop_full_none 1500 1 []⟩
  · unfold Runs.GetRuns Runs.GetRunsAux
    exact congrArg Prod.fst (getRunsLoop_congr serverRunsA serverRunsB 0 1000 1
      [] (fun p h1 h2 => by
        simp only [serverRunsA, serverRunsB]
        rw [if_pos (by omega)]))
  · simp [serverRunsA, serverRunsB, fullRunPage]

/-- C6 as amended.  Only `GetRuns` has a hard page-count ceiling (1000
pages), which does bound the number of page requests even against a server
that never returns a short page; but exceeding it is silent: the result
carries no truncation indicator, so any two servers agreeing on pages
1..1000 give the caller the same value.  `GetRunResults` has no ceiling:
against a full-page server it never returns, whatever page budget it is
observed for. -/
theorem C6_truncation_amended (server server2 : Nat → PageResp Run)
    (afterDate : Int) (fuel : Nat)
    (hagree : ∀ p, 1 ≤ p → p ≤ 1000 → server p = server2 p) :
    (Runs.GetRunsAux server afterDate).2 ≤ 1000 ∧
    Runs.GetRuns server afterDate = Runs.GetRuns server2 afterDate ∧
    Results.GetRunResults serverFullResults fuel = none := by
  refine ⟨?_, ?_, getRunResultsLoop_full_none fuel 1 []⟩
  · have := getRunsLoop_lastPage server afterDate 1000 1 []
    simpa using this
  · unfold Runs.GetRuns Runs.GetRunsAux
    exact congrArg Prod.fst (getRunsLoop_congr server server2 afterDate 1000 1
      [] (fun p h1 h2 => hagree p h1 (by omega)))

/-- Witness for the amended C6 at the two concrete servers and a page
budget of 1500. -/
theorem C6_truncation_amended_witness :
    (Runs.GetRunsAux serverRunsA 0).2 ≤ 1000 ∧
    Runs.GetRuns serverRunsA 0 = Runs.GetRuns serverRunsB 0 ∧
    Results.GetRunResults serverFullResults 1500 = none := by
  exact C6_truncation_amended serverRunsA serverRunsB 0 1500
    (fun p h1 h2 => by
      simp only [serverRunsA, serverRunsB]
      rw [if_pos h2])

/-- C8 fails on the code as claimed: dry-run skips the idempotency
decisions wholesale.  On a concrete group whose single mapped candidate
(case 105) already has a result in the target run, with idempotent mode on,
the dry-run task performs zero remote calls — in particular neither the
existence probe nor the already-posted filter — and reports 1 would-be
posted result as a success, whereas running the same group live performs
the idempotency reads and posts 0 results (all already present).  The "no
write call" and "reported as success with counts" parts of the claim hold;
the "performs the idempotency decisions" part does not. -/
theorem C8_dry_run_counterexample :
    processRun cfgDry envC8 [rec5] mapC8 none =
      ({ success := true, results := 1, skipped := 0 }, []) ∧
    (processRun cfgWet envC8 [rec5] mapC8 none).1.results = 0 ∧
    (processRun cfgWet envC8 [rec5] mapC8 none).1.success = true ∧
    (processRun cfgWet envC8 [rec5] mapC8 none).2 =
      [.createOrGetRun, .checkRunHasResults, .fetchExistingCaseIDs] := by
  exact ⟨rfl, rfl, rfl, rfl⟩

/-- C8 as amended.  For every run-group processed with the dry-run flag
set, the task performs the transformation (mapping and skip decisions) but
returns before any remote call — so no target run is created and no results
are posted, and also none of the idempotency probes run — and the group is
reported as a success whose posted count is the transformed (unfiltered)
item count and whose skipped count is the transform's skip count. -/
theorem C8_dry_run_amended (cfg : RunConfig) (env : RunEnv)
    (results : List ResultRec) (caseMapping : List (Int × Int))
    (statusMap : Option (List (String × String))) (h : cfg.dryRun = true) :
    processRun cfg env results caseMapping statusMap =
      ({ success := true,
         results :=
           (Part003.transformResults results caseMapping statusMap).1.length,
         skipped :=
           (Part003.transformResults results caseMapping statusMap).2.1 },
       []) := by
  simp [processRun, h]

/-- Witness for the amended C8 at the concrete dry-run group. -/
theorem C8_dry_run_amended_witness :
    processRun cfgDry envC8 [rec5] mapC8 none =
      ({ success := true,
         results := (Part003.transformResults [rec5] mapC8 none).1.length,
         skipped := (Part003.transformResults [rec5] mapC8 none).2.1 }, []) := by
  exact C8_dry_run_amended cfgDry envC8 [rec5] mapC8 none rfl
